import Mathlib

/-!
# DietPlan: the day ledger of `app.js`

A shallow embedding of the model and storage logic of `src/app.js` (library,
day, template, totals, progress) and of the event handlers that mutate a day.

Modelling conventions.

* A JavaScript number is an exact rational (`ℚ`): `NaN`, the infinities, the
  sign of zero and binary rounding error are outside the model.  `Number(x)`
  applied to a number is the identity.
* `x || d` on a number is `orElse x d` (zero is falsy).
* The text of a form field is a `FormValue`: the empty string, or a string
  that `Number` reads as a rational.  Strings that `Number` maps to `NaN`
  are outside the model.
* `crypto.randomUUID()` is a stream of identifiers `fresh : ℕ → String`
  carried by the state; each call takes the head of the stream.
* `localStorage` holds, under each key the program uses, the value the
  program wrote there (`JSON.parse (JSON.stringify v) = v` on these values).
* `String.prototype.trim` and `String.prototype.toLowerCase` are the two
  fields of a parameter `js : StringOps` of the one handler that calls them.
* `confirm(...)` dialogs are a boolean input of the handler.
-/

namespace DietPlan

/-! ## Data model -/

/-- A library entry, as in `DEFAULT_LIBRARY`. -/
structure Entry where
  name : String
  calories : ℚ
  protein : ℚ
  carbs : ℚ
  fat : ℚ
  deriving DecidableEq

/-- A line of a day, as built by `makeItemFromLibraryEntry`. -/
structure Item where
  id : String
  name : String
  calories : ℚ
  protein : ℚ
  carbs : ℚ
  fat : ℚ
  plannedServings : ℚ
  consumedServings : ℚ
  deriving DecidableEq

/-- An element of the saved template (`#saveTemplateBtn`). -/
structure TemplateEntry where
  name : String
  calories : ℚ
  protein : ℚ
  carbs : ℚ
  fat : ℚ
  plannedServings : ℚ
  deriving DecidableEq

/-- The day record `{ date, items }`. -/
structure Day where
  date : String
  items : List Item
  deriving DecidableEq

/-- The targets record, as in `DEFAULT_TARGETS`. -/
structure Targets where
  calories : ℚ
  protein : ℚ
  carbs : ℚ
  fat : ℚ
  deriving DecidableEq

/-- The accumulator of `calcConsumedTotals`. -/
structure Totals where
  calories : ℚ
  protein : ℚ
  carbs : ℚ
  fat : ℚ
  plannedServings : ℚ
  deriving DecidableEq

/-- The constant `DEFAULT_TARGETS`. -/
def DEFAULT_TARGETS : Targets :=
  { calories := 2000, protein := 160, carbs := 165, fat := 41 }

/-- The constant `DEFAULT_LIBRARY`. -/
def DEFAULT_LIBRARY : List Entry :=
  [ { name := "Smoked Turkey (100 g)", calories := 100, protein := 16, carbs := 1, fat := 3 },
    { name := "Kashkawan Cheese (50 g)", calories := 180, protein := 12, carbs := 1, fat := 14 },
    { name := "Oat Loaf", calories := 140, protein := 5, carbs := 25, fat := 2 },
    { name := "Chicken Breast (200 g, raw)", calories := 240, protein := 46, carbs := 0, fat := 4 },
    { name := "Olive Oil (1 tsp, with chicken)", calories := 40, protein := 0, carbs := 0,
      fat := 9 / 2 },
    { name := "Potato (300 g, raw)", calories := 258, protein := 7, carbs := 60, fat := 2 / 5 },
    { name := "Taanayel Greek Yogurt Cup", calories := 128, protein := 10, carbs := 6, fat := 5 },
    { name := "Tuna Can", calories := 145, protein := 24, carbs := 0, fat := 1 },
    { name := "Olive Oil (1 tsp, with tuna)", calories := 40, protein := 0, carbs := 0,
      fat := 9 / 2 },
    { name := "Lettuce (100 g)", calories := 15, protein := 1, carbs := 3, fat := 0 },
    { name := "Banana (medium ~120 g)", calories := 105, protein := 1, carbs := 27, fat := 0 },
    { name := "Apple (medium ~150 g)", calories := 95, protein := 0, carbs := 25, fat := 0 },
    { name := "Almonds (15 g)", calories := 87, protein := 3, carbs := 3, fat := 7 },
    { name := "Whey Protein (1 scoop)", calories := 130, protein := 30, carbs := 3, fat := 2 },
    { name := "Lactose-Free Milk (250 ml)", calories := 117, protein := 8, carbs := 12,
      fat := 4 } ]

/-! ## Utilities -/

/-- The expression `x || d` for a number `x`: zero is falsy. -/
def orElse (x d : ℚ) : ℚ := if x = 0 then d else x

/-- The text of a form field. -/
inductive FormValue where
  | empty : FormValue
  | numeral (q : ℚ) : FormValue
  deriving DecidableEq

/-- The expression `Number(v || d)` for the text `v` of a form field: the
empty string is falsy, every other string is read by `Number`. -/
def FormValue.numberOr (v : FormValue) (d : ℚ) : ℚ :=
  match v with
  | FormValue.empty => d
  | FormValue.numeral q => q

/-- The function `clamp = (val, min, max) => Math.min(max, Math.max(min, val))`. -/
def clamp (val lo hi : ℚ) : ℚ := min hi (max lo val)

/-- The constant `Number.EPSILON`, two to the power -52. -/
def EPSILON : ℚ := 1 / 2 ^ 52

/-- The function `Math.round`: the nearest integer, halves rounded up. -/
def mathRound (x : ℚ) : ℚ := ((⌊x + 1 / 2⌋ : ℤ) : ℚ)

/-- The function `round1 = (n) => Math.round((Number(n) + Number.EPSILON) * 10) / 10`. -/
def round1 (n : ℚ) : ℚ := mathRound ((n + EPSILON) * 10) / 10

/-- The function `round0 = (n) => Math.round(Number(n))`. -/
def round0 (n : ℚ) : ℚ := mathRound n

/-! ## Day model -/

/-- The function `makeItemFromLibraryEntry`; `id` is the identifier that
`crypto.randomUUID()` returns at this call. -/
def makeItemFromLibraryEntry (id : String) (entry : Entry) : Item :=
  { id := id
    name := entry.name
    calories := entry.calories
    protein := entry.protein
    carbs := entry.carbs
    fat := entry.fat
    plannedServings := 1
    consumedServings := 0 }

/-- The expression `library.map(makeItemFromLibraryEntry)`: the `i`-th entry
receives the `i`-th identifier of the stream. -/
def makeItems (fresh : ℕ → String) : List Entry → List Item
  | [] => []
  | e :: es => makeItemFromLibraryEntry (fresh 0) e :: makeItems (fun n => fresh (n + 1)) es

/-- The function `makeNewDayFromLibrary`. -/
def makeNewDayFromLibrary (fresh : ℕ → String) (dateStr : String) (library : List Entry) : Day :=
  { date := dateStr, items := makeItems fresh library }

/-! ## Calculations -/

/-- The reducer passed to `reduce` in `calcConsumedTotals`. -/
def addToTotals (acc : Totals) (it : Item) : Totals :=
  let servings := orElse it.consumedServings 0
  { calories := acc.calories + it.calories * servings
    protein := acc.protein + it.protein * servings
    carbs := acc.carbs + it.carbs * servings
    fat := acc.fat + it.fat * servings
    plannedServings := acc.plannedServings + orElse it.plannedServings 0 }

/-- The function `calcConsumedTotals`. -/
def calcConsumedTotals (day : Day) : Totals :=
  day.items.foldl addToTotals
    { calories := 0, protein := 0, carbs := 0, fat := 0, plannedServings := 0 }

/-- The width, in percent, that `renderTotals` gives the progress bar of a
metric: `target > 0 ? clamp((value / target) * 100, 0, 140) : 0`. -/
def progressPct (value target : ℚ) : ℚ :=
  if target > 0 then clamp (value / target * 100) 0 140 else 0

/-- What `renderTotals` shows: the rounded totals and the four bar widths. -/
structure TotalsView where
  totalCalories : ℚ
  totalProtein : ℚ
  totalCarbs : ℚ
  totalFat : ℚ
  totalPlannedServings : ℚ
  pctCalories : ℚ
  pctProtein : ℚ
  pctCarbs : ℚ
  pctFat : ℚ
  deriving DecidableEq

/-- The function `renderTotals`, as a function of the day and the targets. -/
def renderTotals (day : Day) (targets : Targets) : TotalsView :=
  let totals := calcConsumedTotals day
  { totalCalories := round0 totals.calories
    totalProtein := round1 totals.protein
    totalCarbs := round1 totals.carbs
    totalFat := round1 totals.fat
    totalPlannedServings := round1 totals.plannedServings
    pctCalories := progressPct totals.calories targets.calories
    pctProtein := progressPct totals.protein targets.protein
    pctCarbs := progressPct totals.carbs targets.carbs
    pctFat := progressPct totals.fat targets.fat }

/-! ## Storage -/

/-- The content of `localStorage` under the keys `STORAGE_KEYS.day(dateStr)`,
`STORAGE_KEYS.library`, `STORAGE_KEYS.template` and `STORAGE_KEYS.defaults`;
`none` is a key that was never written. -/
structure Store where
  day : String → Option Day
  library : Option (List Entry)
  template : Option (List TemplateEntry)
  defaults : Option Targets

/-- The function `loadJson(key, fallback)`, applied to the content of the key. -/
def loadJson {α : Type} (content : Option α) (fallback : α) : α :=
  match content with
  | none => fallback
  | some v => v

/-- The call `saveJson(STORAGE_KEYS.day(dateStr), day)`. -/
def saveDayJson (dateStr : String) (day : Day) (store : Store) : Store :=
  { store with day := fun k => if k = dateStr then some day else store.day k }

/-- The function `saveDay`. -/
def saveDay (day : Day) (store : Store) : Store :=
  saveDayJson day.date day store

/-- The function `loadDay`: the day it returns and the storage it leaves.
The match is on `loadJson(key, null)`, the content of the key or `null`. -/
def loadDay (fresh : ℕ → String) (dateStr : String) (store : Store) : Day × Store :=
  match store.day dateStr with
  | some day => (day, store)
  | none =>
    let library := loadJson store.library DEFAULT_LIBRARY
    let day := makeNewDayFromLibrary fresh dateStr library
    (day, saveDayJson dateStr day store)

/-! ## UI state and event handlers -/

/-- The variable `state` (without the theme), the storage, and the stream of
identifiers still to be handed out. -/
structure State where
  dateStr : String
  day : Day
  targets : Targets
  library : List Entry
  store : Store
  fresh : ℕ → String

/-- The stream of identifiers after `k` of them were taken. -/
def dropFresh (k : ℕ) (fresh : ℕ → String) : ℕ → String := fun n => fresh (n + k)

/-- The tail of every handler that changed the day: the day is put in the
state and `saveDay(state.day)` is called. -/
def commitDay (day : Day) (s : State) : State :=
  { s with day := day, store := saveDay day s.store }

/-- An assignment to fields of `item`, the first element of the list whose id
is `id` (what `items.find((x) => x.id === id)` returns), done in place. -/
def modifyItem (id : String) (f : Item → Item) : List Item → List Item
  | [] => []
  | x :: xs => if x.id = id then f x :: xs else x :: modifyItem id f xs

/-- The class of the element clicked in a row of `#itemsTbody`. -/
inductive ClickTarget where
  | remove : ClickTarget
  | consumeHalf : ClickTarget
  | consumeFull : ClickTarget
  | minus : ClickTarget
  | plus : ClickTarget
  | other : ClickTarget
  deriving DecidableEq

/-- The body of the `consume-half` branch. -/
def consumeHalf (item : Item) : Item :=
  { item with consumedServings := round1 (item.plannedServings * (1 / 2)) }

/-- The body of the `consume-full` branch. -/
def consumeFull (item : Item) : Item :=
  { item with consumedServings := orElse item.plannedServings 0 }

/-- The body of the `minus` branch. -/
def minusStep (item : Item) : Item :=
  let planned := max 0 (round1 (item.plannedServings - 1 / 2))
  { item with
    plannedServings := planned
    consumedServings := if item.consumedServings > planned then planned else item.consumedServings }

/-- The body of the `plus` branch. -/
def plusStep (item : Item) : Item :=
  { item with plannedServings := round1 (item.plannedServings + 1 / 2) }

/-- The body of the `planned` branch of the input handler. -/
def setPlanned (value : FormValue) (item : Item) : Item :=
  let planned := max 0 (value.numberOr 0)
  { item with
    plannedServings := planned
    consumedServings := if item.consumedServings > planned then planned else item.consumedServings }

/-- The body of the `eat-check` branch of the change handler. -/
def setEaten (checked : Bool) (item : Item) : Item :=
  { item with consumedServings := if checked then orElse item.plannedServings 0 else 0 }

/-- The click handler of `#itemsTbody` on the row whose `data-id` is `id`;
`confirmed` is the answer to the `confirm` dialog of the remove branch. -/
def onItemsClick (target : ClickTarget) (confirmed : Bool) (id : String) (s : State) : State :=
  match s.day.items.find? (fun x => x.id = id) with
  | none => s
  | some _ =>
    match target with
    | ClickTarget.remove =>
      if confirmed then
        commitDay { s.day with items := s.day.items.filter (fun x => x.id ≠ id) } s
      else s
    | ClickTarget.consumeHalf =>
      commitDay { s.day with items := modifyItem id consumeHalf s.day.items } s
    | ClickTarget.consumeFull =>
      commitDay { s.day with items := modifyItem id consumeFull s.day.items } s
    | ClickTarget.minus =>
      commitDay { s.day with items := modifyItem id minusStep s.day.items } s
    | ClickTarget.plus =>
      commitDay { s.day with items := modifyItem id plusStep s.day.items } s
    | ClickTarget.other => s

/-- The input handler of `#itemsTbody` for an element of class `planned`
whose text is `value`, on the row whose `data-id` is `id`. -/
def onItemsInput (value : FormValue) (id : String) (s : State) : State :=
  match s.day.items.find? (fun x => x.id = id) with
  | none => s
  | some _ => commitDay { s.day with items := modifyItem id (setPlanned value) s.day.items } s

/-- The change handler of `#itemsTbody` for the `eat-check` box, on the row
whose `data-id` is `id`. -/
def onItemsChange (checked : Bool) (id : String) (s : State) : State :=
  match s.day.items.find? (fun x => x.id = id) with
  | none => s
  | some _ => commitDay { s.day with items := modifyItem id (setEaten checked) s.day.items } s

/-- The two string methods the add-item handler calls, `String.prototype.trim`
and `String.prototype.toLowerCase`. -/
structure StringOps where
  trim : String → String
  toLowerCase : String → String

/-- The object `Object.fromEntries(new FormData(form))` of the add-item form. -/
structure ItemFormData where
  name : String
  calories : FormValue
  protein : FormValue
  carbs : FormValue
  fat : FormValue
  plannedServings : FormValue

/-- The constant `entry` of the submit handler of `#itemForm`. -/
def entryOfForm (js : StringOps) (data : ItemFormData) : Entry :=
  { name := js.trim data.name
    calories := data.calories.numberOr 0
    protein := data.protein.numberOr 0
    carbs := data.carbs.numberOr 0
    fat := data.fat.numberOr 0 }

/-- The constant `item` of the submit handler of `#itemForm`, after the
assignment to `item.plannedServings`. -/
def itemOfForm (js : StringOps) (id : String) (data : ItemFormData) : Item :=
  { makeItemFromLibraryEntry id (entryOfForm js data) with
    plannedServings := data.plannedServings.numberOr 1 }

/-- The submit handler of `#itemForm`: the item is pushed on the day and the
day saved, then the entry is pushed on the library and the library saved
unless some entry of the library has the same lower-cased name. -/
def onItemFormSubmit (js : StringOps) (data : ItemFormData) (s : State) : State :=
  let entry := entryOfForm js data
  let item := itemOfForm js (s.fresh 0) data
  let s1 := { commitDay { s.day with items := s.day.items ++ [item] } s with
    fresh := dropFresh 1 s.fresh }
  let found := s1.library.any (fun x => js.toLowerCase x.name = js.toLowerCase entry.name)
  if found then s1
  else
    { s1 with
      library := s1.library ++ [entry]
      store := { s1.store with library := some (s1.library ++ [entry]) } }

/-- The element that `#saveTemplateBtn` stores for an item. -/
def templateOfItem (it : Item) : TemplateEntry :=
  { name := it.name
    calories := it.calories
    protein := it.protein
    carbs := it.carbs
    fat := it.fat
    plannedServings := it.plannedServings }

/-- The click handler of `#saveTemplateBtn`. -/
def onSaveTemplateClick (s : State) : State :=
  { s with store := { s.store with template := some (s.day.items.map templateOfItem) } }

/-- The item that `#loadTemplateBtn` builds from an element of the template:
`makeItemFromLibraryEntry(t)` with `plannedServings = Number(t.plannedServings || 1)`. -/
def itemOfTemplate (id : String) (t : TemplateEntry) : Item :=
  { makeItemFromLibraryEntry id
      { name := t.name, calories := t.calories, protein := t.protein, carbs := t.carbs,
        fat := t.fat } with
    plannedServings := orElse t.plannedServings 1 }

/-- The expression `template.map((t) => ...)` of `#loadTemplateBtn`: the
`i`-th element receives the `i`-th identifier of the stream. -/
def makeTemplateItems (fresh : ℕ → String) : List TemplateEntry → List Item
  | [] => []
  | t :: ts => itemOfTemplate (fresh 0) t :: makeTemplateItems (fun n => fresh (n + 1)) ts

/-- The click handler of `#loadTemplateBtn`; `confirmed` is the answer to its
`confirm` dialog. -/
def onLoadTemplateClick (confirmed : Bool) (s : State) : State :=
  match s.store.template with
  | none => s
  | some template =>
    if confirmed then
      { commitDay { s.day with items := makeTemplateItems s.fresh template } s with
        fresh := dropFresh template.length s.fresh }
    else s

/-- The click handler of `#resetDayBtn`; `confirmed` is the answer to its
`confirm` dialog. -/
def onResetDayClick (confirmed : Bool) (s : State) : State :=
  if confirmed then
    { commitDay (makeNewDayFromLibrary s.fresh s.dateStr s.library) s with
      fresh := dropFresh s.library.length s.fresh }
  else s

/-! ## Concrete inputs used in the evaluations below -/

/-- A storage in which no key was written. -/
def emptyStore : Store :=
  { day := fun _ => none, library := none, template := none, defaults := none }

/-- The string methods on ASCII text. -/
def asciiOps : StringOps :=
  { trim := fun s =>
      String.mk
        ((s.data.dropWhile Char.isWhitespace).reverse.dropWhile Char.isWhitespace).reverse
    toLowerCase := fun s => String.mk (s.data.map Char.toLower) }

/-- An item with the macros of the first library entry and the given servings. -/
def turkey (id : String) (planned consumed : ℚ) : Item :=
  { id := id, name := "Smoked Turkey (100 g)", calories := 100, protein := 16, carbs := 1,
    fat := 3, plannedServings := planned, consumedServings := consumed }

/-- A state whose day is `items` on 2025-01-01, with an empty library and
nothing in storage. -/
def stateWith (items : List Item) : State :=
  { dateStr := "2025-01-01"
    day := { date := "2025-01-01", items := items }
    targets := DEFAULT_TARGETS
    library := []
    store := emptyStore
    fresh := fun n => toString n }

/-- The add-item form filled with a name, four macros and planned servings. -/
def formWith (name : String) (calories planned : FormValue) : ItemFormData :=
  { name := name, calories := calories, protein := FormValue.numeral 16,
    carbs := FormValue.numeral 1, fat := FormValue.numeral 3, plannedServings := planned }

/-- The invariant of a line of a day: `0 ≤ consumedServings ≤ plannedServings`. -/
def Item.WithinPlan (it : Item) : Prop :=
  0 ≤ it.consumedServings ∧ it.consumedServings ≤ it.plannedServings

/-- The number `x` is what the field text `v` denotes, and `d` when the field
is empty. -/
def FormValue.ReadsAs (v : FormValue) (d x : ℚ) : Prop :=
  (v = FormValue.empty → x = d) ∧ ∀ q, v = FormValue.numeral q → x = q

/-- The field text `v` is empty or denotes a number that is at least 0. -/
def FormValue.NonNeg (v : FormValue) : Prop :=
  ∀ q, v = FormValue.numeral q → 0 ≤ q

/-! ## Lemmas on rounding -/

theorem mathRound_le (x : ℚ) : mathRound x ≤ x + 1 / 2 := by
  unfold mathRound
  exact Int.floor_le _

theorem lt_mathRound (x : ℚ) : x - 1 / 2 < mathRound x := by
  unfold mathRound
  have h := Int.lt_floor_add_one (x + 1 / 2)
  linarith

theorem EPSILON_pos : 0 < EPSILON := by
  norm_num [EPSILON]

theorem round1_gt (n : ℚ) : n - 1 / 20 < round1 n := by
  unfold round1
  have h := lt_mathRound ((n + EPSILON) * 10)
  have he := EPSILON_pos
  rw [lt_div_iff₀ (by norm_num : (0 : ℚ) < 10)]
  linarith

theorem round1_nonneg (n : ℚ) (hn : 0 ≤ n) : 0 ≤ round1 n := by
  unfold round1 mathRound
  have he := EPSILON_pos
  have h0 : (0 : ℤ) ≤ ⌊(n + EPSILON) * 10 + 1 / 2⌋ := by
    apply Int.floor_nonneg.mpr
    nlinarith
  have h1 : (0 : ℚ) ≤ ((⌊(n + EPSILON) * 10 + 1 / 2⌋ : ℤ) : ℚ) := by exact_mod_cast h0
  positivity

/-! ## Totals and progress -/

theorem orElse_zero (x : ℚ) : orElse x 0 = x := by
  unfold orElse
  split_ifs with h
  · exact h.symm
  · rfl

theorem foldl_addToTotals (items : List Item) (acc : Totals) :
    items.foldl addToTotals acc =
      { calories := acc.calories + (items.map fun it => it.calories * it.consumedServings).sum
        protein := acc.protein + (items.map fun it => it.protein * it.consumedServings).sum
        carbs := acc.carbs + (items.map fun it => it.carbs * it.consumedServings).sum
        fat := acc.fat + (items.map fun it => it.fat * it.consumedServings).sum
        plannedServings := acc.plannedServings + (items.map fun it => it.plannedServings).sum } := by
  induction items generalizing acc with
  | nil => simp
  | cons it rest ih =>
    rw [List.foldl_cons, ih]
    simp only [addToTotals, orElse_zero, List.map_cons, List.sum_cons, add_assoc]

/-- C2: `calcConsumedTotals` sums each macro weighted by `consumedServings`
(not `plannedServings`) and sums `plannedServings` whatever was consumed; on
the one-item day of the specification it returns 100, 16, 1, 3 and 2. -/
theorem calcConsumedTotals_spec (day : Day) (date id name : String) :
    (calcConsumedTotals day).calories
        = (day.items.map fun it => it.calories * it.consumedServings).sum ∧
    (calcConsumedTotals day).protein
        = (day.items.map fun it => it.protein * it.consumedServings).sum ∧
    (calcConsumedTotals day).carbs
        = (day.items.map fun it => it.carbs * it.consumedServings).sum ∧
    (calcConsumedTotals day).fat
        = (day.items.map fun it => it.fat * it.consumedServings).sum ∧
    (calcConsumedTotals day).plannedServings
        = (day.items.map fun it => it.plannedServings).sum ∧
    calcConsumedTotals
        { date := date
          items := [{ id := id, name := name, calories := 100, protein := 16, carbs := 1,
                      fat := 3, plannedServings := 2, consumedServings := 1 }] }
      = { calories := 100, protein := 16, carbs := 1, fat := 3, plannedServings := 2 } := by
  refine ⟨?_, ?_, ?_, ?_, ?_, ?_⟩
  · simp [calcConsumedTotals, foldl_addToTotals]
  · simp [calcConsumedTotals, foldl_addToTotals]
  · simp [calcConsumedTotals, foldl_addToTotals]
  · simp [calcConsumedTotals, foldl_addToTotals]
  · simp [calcConsumedTotals, foldl_addToTotals]
  · norm_num [calcConsumedTotals, addToTotals, orElse]

/-- C3: the bar width of `renderTotals` is 0 when the target is not positive
and the quotient `value / target * 100` cut to the range from 0 to 140
otherwise; it always lies between 0 and 140, the four widths of
`renderTotals` are this function of the totals and targets, and a value of 100
against a target of 2000 gives 5. -/
theorem progressPct_spec (value target : ℚ) (day : Day) (targets : Targets) :
    progressPct value target
        = (if target ≤ 0 then 0
           else if value / target * 100 < 0 then 0
           else if 140 < value / target * 100 then 140
           else value / target * 100) ∧
    0 ≤ progressPct value target ∧ progressPct value target ≤ 140 ∧
    (renderTotals day targets).pctCalories
        = progressPct (calcConsumedTotals day).calories targets.calories ∧
    (renderTotals day targets).pctProtein
        = progressPct (calcConsumedTotals day).protein targets.protein ∧
    (renderTotals day targets).pctCarbs
        = progressPct (calcConsumedTotals day).carbs targets.carbs ∧
    (renderTotals day targets).pctFat
        = progressPct (calcConsumedTotals day).fat targets.fat ∧
    progressPct 100 2000 = 5 := by
  refine ⟨?_, ?_, ?_, rfl, rfl, rfl, rfl, ?_⟩
  · unfold progressPct clamp
    by_cases ht : target ≤ 0
    · simp [ht, not_lt.mpr ht]
    · have ht2 : target > 0 := not_le.mp ht
      simp only [ht, ht2, if_true, if_false]
      by_cases h0 : value / target * 100 < 0
      · simp only [h0, if_true]
        rw [max_eq_left h0.le]
        norm_num
      · simp only [h0, if_false]
        rw [max_eq_right (not_lt.mp h0)]
        by_cases h1 : 140 < value / target * 100
        · simp only [h1, if_true]
          exact min_eq_left h1.le
        · simp only [h1, if_false]
          exact min_eq_right (not_lt.mp h1)
  · unfold progressPct clamp
    split_ifs
    · exact le_min (by norm_num) (le_max_left _ _)
    · exact le_refl _
  · unfold progressPct clamp
    split_ifs
    · exact min_le_left _ _
    · norm_num
  · norm_num [progressPct, clamp]

/-! ## The handlers of a row -/

theorem find_split (id : String) (l₁ l₂ : List Item) (it : Item)
    (hl : ∀ x ∈ l₁, x.id ≠ id) (hid : it.id = id) :
    (l₁ ++ it :: l₂).find? (fun x => x.id = id) = some it := by
  induction l₁ with
  | nil => simp [hid]
  | cons a rest ih =>
    have ha : a.id ≠ id := hl a (List.mem_cons_self a rest)
    have hr : ∀ x ∈ rest, x.id ≠ id := fun x hx => hl x (List.mem_cons_of_mem a hx)
    simp [List.find?_cons, ha, ih hr]

theorem modifyItem_split (id : String) (f : Item → Item) (l₁ l₂ : List Item) (it : Item)
    (hl : ∀ x ∈ l₁, x.id ≠ id) (hid : it.id = id) :
    modifyItem id f (l₁ ++ it :: l₂) = l₁ ++ f it :: l₂ := by
  induction l₁ with
  | nil => simp [modifyItem, hid]
  | cons a rest ih =>
    have ha : a.id ≠ id := hl a (List.mem_cons_self a rest)
    have hr : ∀ x ∈ rest, x.id ≠ id := fun x hx => hl x (List.mem_cons_of_mem a hx)
    simp [modifyItem, ha, ih hr]

theorem onItemsInput_split (value : FormValue) (id : String) (s : State) (l₁ l₂ : List Item)
    (it : Item) (hs : s.day.items = l₁ ++ it :: l₂) (hl : ∀ x ∈ l₁, x.id ≠ id)
    (hid : it.id = id) :
    onItemsInput value id s
      = commitDay { s.day with items := l₁ ++ setPlanned value it :: l₂ } s := by
  unfold onItemsInput
  rw [hs, find_split id l₁ l₂ it hl hid, modifyItem_split id _ l₁ l₂ it hl hid]

theorem onItemsClick_split (target : ClickTarget) (confirmed : Bool) (id : String) (s : State)
    (l₁ l₂ : List Item) (it : Item) (hs : s.day.items = l₁ ++ it :: l₂)
    (hl : ∀ x ∈ l₁, x.id ≠ id) (hid : it.id = id) (f : Item → Item)
    (hf : (target = ClickTarget.consumeHalf ∧ f = consumeHalf) ∨
          (target = ClickTarget.consumeFull ∧ f = consumeFull) ∨
          (target = ClickTarget.minus ∧ f = minusStep) ∨
          (target = ClickTarget.plus ∧ f = plusStep)) :
    onItemsClick target confirmed id s
      = commitDay { s.day with items := l₁ ++ f it :: l₂ } s := by
  unfold onItemsClick
  rw [hs, find_split id l₁ l₂ it hl hid]
  rcases hf with ⟨ht, hf⟩ | ⟨ht, hf⟩ | ⟨ht, hf⟩ | ⟨ht, hf⟩ <;>
    subst ht <;> subst hf <;> simp only [modifyItem_split id _ l₁ l₂ it hl hid]

theorem setPlanned_numeral (v : ℚ) (it : Item) :
    setPlanned (FormValue.numeral v) it
      = { it with
          plannedServings := max 0 v
          consumedServings := min it.consumedServings (max 0 v) } := by
  unfold setPlanned
  simp only [FormValue.numberOr]
  by_cases h : it.consumedServings > max 0 v
  · rw [if_pos h, min_eq_right h.le]
  · rw [if_neg h, min_eq_left (not_lt.mp h)]

/-- C4: the `planned` input handler with the numeral `v`, on the first item
`it` whose id is `id`, leaves that item with `plannedServings = max 0 v` and
`consumedServings = min it.consumedServings (max 0 v)`, which is never above the
former `consumedServings`, and leaves all other items as they were; an empty
field acts as the numeral 0; with `v = 1/2` and a former `consumedServings` of 1
the item ends with `consumedServings = 1/2`. -/
theorem onItemsInput_planned_spec (s : State) (id : String) (v : ℚ) (l₁ l₂ : List Item)
    (it : Item) (hs : s.day.items = l₁ ++ it :: l₂) (hl : ∀ x ∈ l₁, x.id ≠ id)
    (hid : it.id = id) :
    (onItemsInput (FormValue.numeral v) id s).day.items
        = l₁ ++ { it with
                  plannedServings := max 0 v
                  consumedServings := min it.consumedServings (max 0 v) } :: l₂ ∧
    min it.consumedServings (max 0 v) ≤ it.consumedServings ∧
    onItemsInput FormValue.empty id s = onItemsInput (FormValue.numeral 0) id s ∧
    (it.consumedServings = 1 →
      (onItemsInput (FormValue.numeral (1 / 2)) id s).day.items
        = l₁ ++ { it with plannedServings := 1 / 2, consumedServings := 1 / 2 } :: l₂) := by
  refine ⟨?_, min_le_left _ _, rfl, ?_⟩
  · rw [onItemsInput_split _ id s l₁ l₂ it hs hl hid, setPlanned_numeral]
    rfl
  · intro hc
    rw [onItemsInput_split _ id s l₁ l₂ it hs hl hid, setPlanned_numeral, hc]
    have h1 : max (0 : ℚ) (1 / 2) = 1 / 2 := max_eq_right (by norm_num)
    have h2 : min (1 : ℚ) (1 / 2) = 1 / 2 := min_eq_right (by norm_num)
    simp only [commitDay, h1, h2]

/-- Witness of C4: the handler on a two-item day, for the second item. -/
theorem onItemsInput_planned_spec_witness :
    (onItemsInput (FormValue.numeral (1 / 2)) "b"
        (stateWith [turkey "a" 1 0, turkey "b" 2 1])).day.items
      = [turkey "a" 1 0] ++
          { turkey "b" 2 1 with
            plannedServings := max 0 (1 / 2)
            consumedServings := min (turkey "b" 2 1).consumedServings (max 0 (1 / 2)) } :: [] :=
  (onItemsInput_planned_spec (stateWith [turkey "a" 1 0, turkey "b" 2 1]) "b" (1 / 2)
    [turkey "a" 1 0] [] (turkey "b" 2 1) rfl (by simp [turkey]) rfl).1

/-! ## Half steps against the planned input -/

theorem minusStep_eq_setPlanned (it : Item) :
    minusStep it = setPlanned (FormValue.numeral (round1 (it.plannedServings - 1 / 2))) it := by
  rfl

theorem plusStep_eq_setPlanned (it : Item) (hw : it.WithinPlan) :
    plusStep it = setPlanned (FormValue.numeral (round1 (it.plannedServings + 1 / 2))) it := by
  obtain ⟨h0, hc⟩ := hw
  have hp : 0 ≤ it.plannedServings := le_trans h0 hc
  have hn : 0 ≤ round1 (it.plannedServings + 1 / 2) := round1_nonneg _ (by linarith)
  have hg := round1_gt (it.plannedServings + 1 / 2)
  have hlt : ¬ it.consumedServings > round1 (it.plannedServings + 1 / 2) := by
    intro h
    linarith
  unfold plusStep setPlanned
  simp only [FormValue.numberOr, max_eq_right hn, if_neg hlt]

/-- C9, counterexample: on an item with `plannedServings = 1/4` and nothing
consumed the `plus` handler leaves `plannedServings = 4/5`, while the `planned`
input handler with `1/4 + 1/2` leaves `plannedServings = 3/4`. -/
theorem plus_differs_from_planned_input :
    (turkey "a" (1 / 4) 0).WithinPlan ∧
    (onItemsClick ClickTarget.plus false "a" (stateWith [turkey "a" (1 / 4) 0])).day.items
      = [turkey "a" (4 / 5) 0] ∧
    (onItemsInput (FormValue.numeral (1 / 4 + 1 / 2)) "a"
        (stateWith [turkey "a" (1 / 4) 0])).day.items
      = [turkey "a" (3 / 4) 0] ∧
    turkey "a" (4 / 5) 0 ≠ turkey "a" (3 / 4) 0 := by
  refine ⟨by norm_num [Item.WithinPlan, turkey], ?_, ?_, ?_⟩
  · norm_num [onItemsClick, stateWith, turkey, commitDay, modifyItem, plusStep, round1,
      mathRound, EPSILON]
  · norm_num [onItemsInput, stateWith, turkey, commitDay, modifyItem, setPlanned,
      FormValue.numberOr]
  · norm_num [turkey]

/-- C9, amended: for the first item `it` whose id is `id`, with
`0 ≤ consumedServings ≤ plannedServings = p`, the `plus` handler leaves the
state that the `planned` input handler leaves with the numeral
`round1 (p + 1/2)`, the `minus` handler the state it leaves with
`round1 (p - 1/2)`, and the resulting `plannedServings` is never below 0. -/
theorem half_step_refines_planned_input (s : State) (id : String) (confirmed : Bool)
    (l₁ l₂ : List Item) (it : Item) (hs : s.day.items = l₁ ++ it :: l₂)
    (hl : ∀ x ∈ l₁, x.id ≠ id) (hid : it.id = id) (hw : it.WithinPlan) :
    onItemsClick ClickTarget.plus confirmed id s
        = onItemsInput (FormValue.numeral (round1 (it.plannedServings + 1 / 2))) id s ∧
    onItemsClick ClickTarget.minus confirmed id s
        = onItemsInput (FormValue.numeral (round1 (it.plannedServings - 1 / 2))) id s ∧
    (onItemsClick ClickTarget.plus confirmed id s).day.items
        = l₁ ++ { it with plannedServings := round1 (it.plannedServings + 1 / 2) } :: l₂ ∧
    (onItemsClick ClickTarget.minus confirmed id s).day.items
        = l₁ ++ { it with
                  plannedServings := max 0 (round1 (it.plannedServings - 1 / 2))
                  consumedServings :=
                    min it.consumedServings (max 0 (round1 (it.plannedServings - 1 / 2))) }
              :: l₂ ∧
    0 ≤ round1 (it.plannedServings + 1 / 2) ∧
    0 ≤ max 0 (round1 (it.plannedServings - 1 / 2)) := by
  have hplus := onItemsClick_split ClickTarget.plus confirmed id s l₁ l₂ it hs hl hid plusStep
    (Or.inr (Or.inr (Or.inr ⟨rfl, rfl⟩)))
  have hminus := onItemsClick_split ClickTarget.minus confirmed id s l₁ l₂ it hs hl hid minusStep
    (Or.inr (Or.inr (Or.inl ⟨rfl, rfl⟩)))
  refine ⟨?_, ?_, ?_, ?_, ?_, le_max_left _ _⟩
  · rw [hplus, onItemsInput_split _ id s l₁ l₂ it hs hl hid, plusStep_eq_setPlanned it hw]
  · rw [hminus, onItemsInput_split _ id s l₁ l₂ it hs hl hid, minusStep_eq_setPlanned it]
  · rw [hplus]
    rfl
  · rw [hminus, minusStep_eq_setPlanned, setPlanned_numeral]
    rfl
  · exact round1_nonneg _ (by linarith [hw.1, hw.2])

/-- Witness of C9, amended: the `plus` handler on a one-item day. -/
theorem half_step_refines_planned_input_witness :
    onItemsClick ClickTarget.plus false "a" (stateWith [turkey "a" (1 / 4) 0])
      = onItemsInput (FormValue.numeral (round1 ((turkey "a" (1 / 4) 0).plannedServings + 1 / 2)))
          "a" (stateWith [turkey "a" (1 / 4) 0]) :=
  (half_step_refines_planned_input (stateWith [turkey "a" (1 / 4) 0]) "a" false [] []
    (turkey "a" (1 / 4) 0) rfl (by simp) rfl (by norm_num [Item.WithinPlan, turkey])).1

/-! ## Marking an item eaten -/

theorem round1_zero : round1 0 = 0 := by
  norm_num [round1, mathRound, EPSILON]

theorem round1_half_le (p : ℚ) (hp : 1 / 10 ≤ p) : round1 (p * (1 / 2)) ≤ p := by
  unfold round1 mathRound
  have he : EPSILON = 1 / 2 ^ 52 := rfl
  have hfl := Int.floor_le ((p * (1 / 2) + EPSILON) * 10 + 1 / 2)
  rw [div_le_iff₀ (by norm_num : (0 : ℚ) < 10)]
  by_cases hbig : 1 / 2 + 10 * EPSILON ≤ 5 * p
  · linarith
  · have hsmall : (p * (1 / 2) + EPSILON) * 10 + 1 / 2 < ((2 : ℤ) : ℚ) := by
      have h2 : (10 : ℚ) * EPSILON < 1 / 2 := by norm_num [he]
      push_cast
      linarith [not_le.mp hbig]
    have hk : ⌊(p * (1 / 2) + EPSILON) * 10 + 1 / 2⌋ < 2 := Int.floor_lt.mpr hsmall
    have hk1 : ⌊(p * (1 / 2) + EPSILON) * 10 + 1 / 2⌋ ≤ 1 := by omega
    have hk2 : ((⌊(p * (1 / 2) + EPSILON) * 10 + 1 / 2⌋ : ℤ) : ℚ) ≤ 1 := by exact_mod_cast hk1
    linarith

/-- C10, counterexample: marking half eaten an item with `plannedServings = 1/2`
sets `consumedServings = 3/10`, which is not `1/2 * 1/2`; and for
`plannedServings = 3602879701896395 / 2 ^ 55`, the double just below 0.1 that
prints as 0.09999999999999995, it sets `consumedServings = 1/10`, which is above
`plannedServings`. -/
theorem consume_half_rounds :
    (onItemsClick ClickTarget.consumeHalf false "a" (stateWith [turkey "a" (1 / 2) 0])).day.items
      = [turkey "a" (1 / 2) (3 / 10)] ∧
    (turkey "a" (1 / 2) (3 / 10)).consumedServings
      ≠ (turkey "a" (1 / 2) 0).plannedServings * (1 / 2) ∧
    (onItemsClick ClickTarget.consumeHalf false "a"
        (stateWith [turkey "a" (3602879701896395 / 2 ^ 55) 0])).day.items
      = [turkey "a" (3602879701896395 / 2 ^ 55) (1 / 10)] ∧
    (turkey "a" (3602879701896395 / 2 ^ 55) (1 / 10)).plannedServings
      < (turkey "a" (3602879701896395 / 2 ^ 55) (1 / 10)).consumedServings := by
  refine ⟨?_, ?_, ?_, ?_⟩
  · norm_num [onItemsClick, stateWith, turkey, commitDay, modifyItem, consumeHalf, round1,
      mathRound, EPSILON]
  · norm_num [turkey]
  · norm_num [onItemsClick, stateWith, turkey, commitDay, modifyItem, consumeHalf, round1,
      mathRound, EPSILON]
  · norm_num [turkey]

/-- C10, amended: for the first item `it` whose id is `id`, with
`plannedServings = p ≥ 0`, marking it half eaten sets
`consumedServings = round1 (p * 1/2)` and marking it fully eaten sets
`consumedServings = p`; both leave `plannedServings` and all other items as they
were; both values are at least 0, the full value is at most `p`, and the half
value is at most `p` when `p = 0` or `p ≥ 1/10`. -/
theorem mark_eaten_spec (s : State) (id : String) (confirmed : Bool)
    (l₁ l₂ : List Item) (it : Item) (hs : s.day.items = l₁ ++ it :: l₂)
    (hl : ∀ x ∈ l₁, x.id ≠ id) (hid : it.id = id) (hp : 0 ≤ it.plannedServings) :
    (onItemsClick ClickTarget.consumeHalf confirmed id s).day.items
        = l₁ ++ { it with consumedServings := round1 (it.plannedServings * (1 / 2)) } :: l₂ ∧
    (onItemsClick ClickTarget.consumeFull confirmed id s).day.items
        = l₁ ++ { it with consumedServings := it.plannedServings } :: l₂ ∧
    0 ≤ round1 (it.plannedServings * (1 / 2)) ∧
    (it.plannedServings = 0 ∨ 1 / 10 ≤ it.plannedServings →
      round1 (it.plannedServings * (1 / 2)) ≤ it.plannedServings) := by
  have hhalf := onItemsClick_split ClickTarget.consumeHalf confirmed id s l₁ l₂ it hs hl hid
    consumeHalf (Or.inl ⟨rfl, rfl⟩)
  have hfull := onItemsClick_split ClickTarget.consumeFull confirmed id s l₁ l₂ it hs hl hid
    consumeFull (Or.inr (Or.inl ⟨rfl, rfl⟩))
  refine ⟨?_, ?_, round1_nonneg _ (by linarith), ?_⟩
  · rw [hhalf]
    rfl
  · rw [hfull]
    simp only [commitDay, consumeFull, orElse_zero]
  · rintro (h0 | h1)
    · rw [h0, zero_mul, round1_zero]
    · exact round1_half_le _ h1

/-- Witness of C10, amended: marking half eaten the second item of a day. -/
theorem mark_eaten_spec_witness :
    (onItemsClick ClickTarget.consumeHalf false "b"
        (stateWith [turkey "a" 1 0, turkey "b" 2 0])).day.items
      = [turkey "a" 1 0] ++
          { turkey "b" 2 0 with
            consumedServings := round1 ((turkey "b" 2 0).plannedServings * (1 / 2)) } :: [] :=
  (mark_eaten_spec (stateWith [turkey "a" 1 0, turkey "b" 2 0]) "b" false
    [turkey "a" 1 0] [] (turkey "b" 2 0) rfl (by simp [turkey]) rfl
    (by norm_num [turkey])).1

/-! ## Lazy creation of a day -/

/-- C7: for a storage with no day under the key of `dateStr`, whatever the
stored library, `loadDay` called twice in succession returns the same day both
times, with the same item ids in the same order, whatever identifiers the
second call would draw; the first call returns the day made from the library
and stores it under the key of `dateStr`, leaving the other day keys alone, and
the second call leaves the storage as the first left it. -/
theorem loadDay_twice (fresh fresh2 : ℕ → String) (dateStr : String) (store : Store)
    (h : store.day dateStr = none) :
    (loadDay fresh2 dateStr (loadDay fresh dateStr store).2).1 = (loadDay fresh dateStr store).1 ∧
    (loadDay fresh2 dateStr (loadDay fresh dateStr store).2).1.items.map Item.id
        = (loadDay fresh dateStr store).1.items.map Item.id ∧
    (loadDay fresh dateStr store).1
        = makeNewDayFromLibrary fresh dateStr (loadJson store.library DEFAULT_LIBRARY) ∧
    (loadDay fresh dateStr store).2.day dateStr = some (loadDay fresh dateStr store).1 ∧
    (∀ k, k ≠ dateStr → (loadDay fresh dateStr store).2.day k = store.day k) ∧
    (loadDay fresh2 dateStr (loadDay fresh dateStr store).2).2 = (loadDay fresh dateStr store).2 := by
  have h1 : loadDay fresh dateStr store
      = (makeNewDayFromLibrary fresh dateStr (loadJson store.library DEFAULT_LIBRARY),
         saveDayJson dateStr
           (makeNewDayFromLibrary fresh dateStr (loadJson store.library DEFAULT_LIBRARY)) store) := by
    unfold loadDay
    rw [h]
  have h2 : loadDay fresh2 dateStr (loadDay fresh dateStr store).2
      = ((loadDay fresh dateStr store).1, (loadDay fresh dateStr store).2) := by
    rw [h1]
    unfold loadDay
    simp [saveDayJson]
  refine ⟨?_, ?_, ?_, ?_, ?_, ?_⟩
  · rw [h2]
  · rw [h2]
  · rw [h1]
  · rw [h1]
    simp [saveDayJson]
  · intro k hk
    rw [h1]
    simp [saveDayJson, hk]
  · rw [h2]

/-- Witness of C7: an empty storage, so that the day is made from
`DEFAULT_LIBRARY`. -/
theorem loadDay_twice_witness :
    (loadDay (fun n => toString (n + 100)) "2025-01-01"
        (loadDay (fun n => toString n) "2025-01-01" emptyStore).2).1
      = (loadDay (fun n => toString n) "2025-01-01" emptyStore).1 :=
  (loadDay_twice (fun n => toString n) (fun n => toString (n + 100)) "2025-01-01" emptyStore
    rfl).1

/-! ## Templates -/

theorem makeTemplateItems_fields (fresh : ℕ → String) (items : List Item) :
    (makeTemplateItems fresh (items.map templateOfItem)).map Item.name = items.map Item.name ∧
    (makeTemplateItems fresh (items.map templateOfItem)).map Item.plannedServings
        = items.map (fun it => orElse it.plannedServings 1) ∧
    (makeTemplateItems fresh (items.map templateOfItem)).map Item.consumedServings
        = items.map (fun _ => 0) := by
  induction items generalizing fresh with
  | nil => simp [makeTemplateItems]
  | cons it rest ih =>
    obtain ⟨h1, h2, h3⟩ := ih (fun n => fresh (n + 1))
    simp only [List.map_cons, makeTemplateItems, h1, h2, h3]
    simp [itemOfTemplate, makeItemFromLibraryEntry, templateOfItem]

/-- The round trip through the template keeps the names in order, sets
`consumedServings` to 0, and turns `plannedServings` into
`orElse plannedServings 1`: itself unless it is 0. -/
theorem template_roundtrip_fields (s : State) :
    (onLoadTemplateClick true (onSaveTemplateClick s)).day.items.map Item.name
        = s.day.items.map Item.name ∧
    (onLoadTemplateClick true (onSaveTemplateClick s)).day.items.map Item.plannedServings
        = s.day.items.map (fun it => orElse it.plannedServings 1) ∧
    (onLoadTemplateClick true (onSaveTemplateClick s)).day.items.map Item.consumedServings
        = s.day.items.map (fun _ => 0) := by
  have h := makeTemplateItems_fields s.fresh s.day.items
  simpa [onLoadTemplateClick, onSaveTemplateClick, commitDay] using h

/-- C5, at the failing input: a day whose one item has `plannedServings = 0`,
saved as the template and loaded again, comes back with `plannedServings = 1`. -/
theorem template_roundtrip_loses_zero_planned :
    (stateWith [turkey "a" 0 0]).day.items.map Item.plannedServings = [0] ∧
    (onLoadTemplateClick true
        (onSaveTemplateClick (stateWith [turkey "a" 0 0]))).day.items.map Item.plannedServings
      = [1] := by
  constructor
  · simp [stateWith, turkey]
  · rw [(template_roundtrip_fields _).2.1]
    simp [stateWith, turkey, orElse]

/-! ## The add-item form -/

theorem onItemFormSubmit_library (js : StringOps) (data : ItemFormData) (s : State) :
    (onItemFormSubmit js data s).library
      = if s.library.any
            (fun x => js.toLowerCase x.name = js.toLowerCase (entryOfForm js data).name)
        then s.library else s.library ++ [entryOfForm js data] := by
  unfold onItemFormSubmit
  simp only [commitDay]
  split_ifs <;> rfl

theorem onItemFormSubmit_items (js : StringOps) (data : ItemFormData) (s : State) :
    (onItemFormSubmit js data s).day.items = s.day.items ++ [itemOfForm js (s.fresh 0) data] := by
  unfold onItemFormSubmit
  simp only [commitDay]
  split_ifs <;> rfl

theorem library_new (js : StringOps) (data : ItemFormData) (s : State)
    (h : ∀ x ∈ s.library, js.toLowerCase x.name ≠ js.toLowerCase (entryOfForm js data).name) :
    (onItemFormSubmit js data s).library = s.library ++ [entryOfForm js data] := by
  rw [onItemFormSubmit_library, if_neg]
  simpa using h

theorem library_known (js : StringOps) (data : ItemFormData) (s : State)
    (h : ∃ x ∈ s.library, js.toLowerCase x.name = js.toLowerCase (entryOfForm js data).name) :
    (onItemFormSubmit js data s).library = s.library := by
  rw [onItemFormSubmit_library, if_pos]
  simpa using h

/-- C6: the add-item handler appends the entry at the end of the library if
and only if no entry of the library has the same lower-cased name, and
otherwise leaves the library as it was; two entries whose names have the same
lower-cased form, added to a library that has neither, add only the first; a
library whose lower-cased names are pairwise different stays so. -/
theorem library_dedup (js : StringOps) (data data2 : ItemFormData) (s : State) :
    ((onItemFormSubmit js data s).library = s.library ++ [entryOfForm js data] ↔
      ∀ x ∈ s.library, js.toLowerCase x.name ≠ js.toLowerCase (entryOfForm js data).name) ∧
    ((∃ x ∈ s.library, js.toLowerCase x.name = js.toLowerCase (entryOfForm js data).name) →
      (onItemFormSubmit js data s).library = s.library) ∧
    (js.toLowerCase (entryOfForm js data2).name = js.toLowerCase (entryOfForm js data).name →
      (∀ x ∈ s.library, js.toLowerCase x.name ≠ js.toLowerCase (entryOfForm js data).name) →
      (onItemFormSubmit js data2 (onItemFormSubmit js data s)).library
          = s.library ++ [entryOfForm js data] ∧
      (onItemFormSubmit js data2 (onItemFormSubmit js data s)).library.length
          = s.library.length + 1) ∧
    (s.library.Pairwise (fun a b => js.toLowerCase a.name ≠ js.toLowerCase b.name) →
      (onItemFormSubmit js data s).library.Pairwise
        (fun a b => js.toLowerCase a.name ≠ js.toLowerCase b.name)) := by
  refine ⟨⟨?_, library_new js data s⟩, library_known js data s, ?_, ?_⟩
  · intro happ x hx hname
    have hk := library_known js data s ⟨x, hx, hname⟩
    rw [hk] at happ
    have hlen := congrArg List.length happ
    simp at hlen
  · intro hsame hnew
    have h1 := library_new js data s hnew
    have h2 : (onItemFormSubmit js data2 (onItemFormSubmit js data s)).library
        = s.library ++ [entryOfForm js data] := by
      rw [library_known js data2 (onItemFormSubmit js data s), h1]
      exact ⟨entryOfForm js data, by rw [h1]; simp, hsame.symm⟩
    exact ⟨h2, by rw [h2]; simp⟩
  · intro hpw
    by_cases hex : ∃ x ∈ s.library,
        js.toLowerCase x.name = js.toLowerCase (entryOfForm js data).name
    · rw [library_known js data s hex]
      exact hpw
    · have hnew : ∀ x ∈ s.library,
          js.toLowerCase x.name ≠ js.toLowerCase (entryOfForm js data).name := by
        intro x hx hname
        exact hex ⟨x, hx, hname⟩
      rw [library_new js data s hnew, List.pairwise_append]
      refine ⟨hpw, List.pairwise_singleton _ _, ?_⟩
      intro a ha b hb
      rw [List.mem_singleton] at hb
      rw [hb]
      exact hnew a ha

/-- Witness of C6: "Soup" and then " SOUP " added to an empty library leave
one entry. -/
theorem library_dedup_witness :
    (onItemFormSubmit asciiOps (formWith " SOUP " (FormValue.numeral 90) FormValue.empty)
        (onItemFormSubmit asciiOps (formWith "Soup" (FormValue.numeral 100) FormValue.empty)
          (stateWith []))).library.length
      = (stateWith []).library.length + 1 :=
  ((library_dedup asciiOps (formWith "Soup" (FormValue.numeral 100) FormValue.empty)
      (formWith " SOUP " (FormValue.numeral 90) FormValue.empty) (stateWith [])).2.2.1
    (by decide) (by simp [stateWith])).2

theorem numberOr_readsAs (v : FormValue) (d : ℚ) : v.ReadsAs d (v.numberOr d) := by
  cases v with
  | empty => exact ⟨fun _ => rfl, fun q hq => FormValue.noConfusion hq⟩
  | numeral r =>
    refine ⟨fun he => FormValue.noConfusion he, fun q hq => ?_⟩
    cases hq
    rfl

theorem numberOr_nonneg (v : FormValue) (d : ℚ) (hd : 0 ≤ d) (hv : v.NonNeg) :
    0 ≤ v.numberOr d := by
  cases v with
  | empty => exact hd
  | numeral r => exact hv r rfl

/-- C8, counterexample: the form submitted with the text `-5` for calories
appends an item whose calories are -5. -/
theorem add_item_keeps_negative_calories :
    (onItemFormSubmit asciiOps (formWith "Soup" (FormValue.numeral (-5)) FormValue.empty)
        (stateWith [])).day.items.map Item.calories = [-5] ∧
    ¬ ∀ it ∈ (onItemFormSubmit asciiOps
          (formWith "Soup" (FormValue.numeral (-5)) FormValue.empty) (stateWith [])).day.items,
        0 ≤ it.calories := by
  have h : (onItemFormSubmit asciiOps (formWith "Soup" (FormValue.numeral (-5)) FormValue.empty)
      (stateWith [])).day.items.map Item.calories = [-5] := by
    rw [onItemFormSubmit_items]
    simp [stateWith, itemOfForm, makeItemFromLibraryEntry, entryOfForm, formWith,
      FormValue.numberOr]
  refine ⟨h, ?_⟩
  intro hall
  have hmap : ∀ c ∈ (onItemFormSubmit asciiOps
      (formWith "Soup" (FormValue.numeral (-5)) FormValue.empty)
      (stateWith [])).day.items.map Item.calories, (0 : ℚ) ≤ c := by
    intro c hc
    obtain ⟨it, hit, rfl⟩ := List.mem_map.mp hc
    exact hall it hit
  rw [h] at hmap
  have := hmap (-5) (by simp)
  norm_num at this

/-- C8, amended: for every add-item form whose numeric fields are empty or
numerals, the handler appends one item, whose calories, protein, carbs and fat
are each the number entered, or 0 for an empty field, whose `plannedServings`
is 1 for an empty field and the number entered when that number is at least 0,
and whose `consumedServings` is 0; each of the five is at least 0 when its field
is empty or holds a number that is at least 0. -/
theorem add_item_fields (js : StringOps) (data : ItemFormData) (s : State) :
    (onItemFormSubmit js data s).day.items = s.day.items ++ [itemOfForm js (s.fresh 0) data] ∧
    data.calories.ReadsAs 0 (itemOfForm js (s.fresh 0) data).calories ∧
    data.protein.ReadsAs 0 (itemOfForm js (s.fresh 0) data).protein ∧
    data.carbs.ReadsAs 0 (itemOfForm js (s.fresh 0) data).carbs ∧
    data.fat.ReadsAs 0 (itemOfForm js (s.fresh 0) data).fat ∧
    (data.plannedServings = FormValue.empty →
      (itemOfForm js (s.fresh 0) data).plannedServings = 1) ∧
    (∀ q, 0 ≤ q → data.plannedServings = FormValue.numeral q →
      (itemOfForm js (s.fresh 0) data).plannedServings = q) ∧
    (itemOfForm js (s.fresh 0) data).consumedServings = 0 ∧
    (data.calories.NonNeg → 0 ≤ (itemOfForm js (s.fresh 0) data).calories) ∧
    (data.protein.NonNeg → 0 ≤ (itemOfForm js (s.fresh 0) data).protein) ∧
    (data.carbs.NonNeg → 0 ≤ (itemOfForm js (s.fresh 0) data).carbs) ∧
    (data.fat.NonNeg → 0 ≤ (itemOfForm js (s.fresh 0) data).fat) ∧
    (data.plannedServings.NonNeg → 0 ≤ (itemOfForm js (s.fresh 0) data).plannedServings) := by
  refine ⟨onItemFormSubmit_items js data s, numberOr_readsAs _ _, numberOr_readsAs _ _,
    numberOr_readsAs _ _, numberOr_readsAs _ _, ?_, ?_, rfl, ?_, ?_, ?_, ?_, ?_⟩
  · exact (numberOr_readsAs data.plannedServings 1).1
  · intro q _ hq
    exact (numberOr_readsAs data.plannedServings 1).2 q hq
  · exact numberOr_nonneg _ 0 le_rfl
  · exact numberOr_nonneg _ 0 le_rfl
  · exact numberOr_nonneg _ 0 le_rfl
  · exact numberOr_nonneg _ 0 le_rfl
  · exact numberOr_nonneg _ 1 zero_le_one

/-- Witness of C8, amended: a form with calories 100 and empty planned
servings appends an item with calories 100 and one planned serving. -/
theorem add_item_fields_witness :
    (itemOfForm asciiOps "0" (formWith "Soup" (FormValue.numeral 100) FormValue.empty)).calories
        = 100 ∧
    (itemOfForm asciiOps "0"
        (formWith "Soup" (FormValue.numeral 100) FormValue.empty)).plannedServings = 1 :=
  ⟨(add_item_fields asciiOps (formWith "Soup" (FormValue.numeral 100) FormValue.empty)
      (stateWith [])).2.1.2 100 rfl,
   (add_item_fields asciiOps (formWith "Soup" (FormValue.numeral 100) FormValue.empty)
      (stateWith [])).2.2.2.2.2.1 rfl⟩

/-! ## The invariant of a day -/

theorem setPlanned_within (value : FormValue) (it : Item) (hw : it.WithinPlan) :
    (setPlanned value it).WithinPlan := by
  obtain ⟨h0, _⟩ := hw
  have hp : (0 : ℚ) ≤ max 0 (value.numberOr 0) := le_max_left _ _
  unfold setPlanned Item.WithinPlan
  by_cases h : it.consumedServings > max 0 (value.numberOr 0)
  · simp only [if_pos h]
    exact ⟨hp, le_rfl⟩
  · simp only [if_neg h]
    exact ⟨h0, not_lt.mp h⟩

theorem consumeFull_within (it : Item) (hw : it.WithinPlan) : (consumeFull it).WithinPlan := by
  unfold consumeFull Item.WithinPlan
  simp only [orElse_zero]
  exact ⟨le_trans hw.1 hw.2, le_rfl⟩

theorem setEaten_within (checked : Bool) (it : Item) (hw : it.WithinPlan) :
    (setEaten checked it).WithinPlan := by
  have hp : 0 ≤ it.plannedServings := le_trans hw.1 hw.2
  unfold setEaten Item.WithinPlan
  cases checked
  · exact ⟨le_rfl, hp⟩
  · simp only [if_true, orElse_zero]
    exact ⟨hp, le_rfl⟩

theorem modifyItem_forall (P : Item → Prop) (id : String) (f : Item → Item)
    (hf : ∀ x, P x → P (f x)) (l : List Item) (hl : ∀ x ∈ l, P x) :
    ∀ x ∈ modifyItem id f l, P x := by
  induction l with
  | nil => simp [modifyItem]
  | cons a rest ih =>
    have ha : P a := hl a (List.mem_cons_self a rest)
    have hr : ∀ x ∈ rest, P x := fun x hx => hl x (List.mem_cons_of_mem a hx)
    unfold modifyItem
    split_ifs
    · intro x hx
      rcases List.mem_cons.mp hx with rfl | hx
      · exact hf a ha
      · exact hr x hx
    · intro x hx
      rcases List.mem_cons.mp hx with rfl | hx
      · exact ha
      · exact ih hr x hx

theorem makeItems_within (fresh : ℕ → String) (library : List Entry) :
    ∀ x ∈ makeItems fresh library, x.WithinPlan := by
  induction library generalizing fresh with
  | nil => simp [makeItems]
  | cons e rest ih =>
    intro x hx
    rcases List.mem_cons.mp hx with rfl | hx
    · norm_num [Item.WithinPlan, makeItemFromLibraryEntry]
    · exact ih _ x hx

/-- The handlers that keep every item of a day within plan: the click
handler on every target but `consume-half`, the `planned` input handler, the
`eat-check` handler, the reset of the day, and the add-item form when its
planned servings field is empty or at least 0. -/
theorem handlers_keep_within_plan (s : State) (id : String) (confirmed : Bool)
    (h : ∀ it ∈ s.day.items, it.WithinPlan) :
    (∀ target, target ≠ ClickTarget.consumeHalf →
      ∀ it ∈ (onItemsClick target confirmed id s).day.items, it.WithinPlan) ∧
    (∀ value, ∀ it ∈ (onItemsInput value id s).day.items, it.WithinPlan) ∧
    (∀ checked, ∀ it ∈ (onItemsChange checked id s).day.items, it.WithinPlan) ∧
    (∀ it ∈ (onResetDayClick confirmed s).day.items, it.WithinPlan) ∧
    (∀ js data, data.plannedServings.NonNeg →
      ∀ it ∈ (onItemFormSubmit js data s).day.items, it.WithinPlan) := by
  refine ⟨?_, ?_, ?_, ?_, ?_⟩
  · intro target ht
    unfold onItemsClick
    cases s.day.items.find? (fun x => x.id = id) with
    | none => exact h
    | some found =>
      cases target with
      | remove =>
        cases confirmed
        · exact h
        · intro it hit
          exact h it (List.mem_of_mem_filter hit)
      | consumeHalf => exact absurd rfl ht
      | consumeFull => exact modifyItem_forall _ id _ consumeFull_within _ h
      | minus =>
        refine modifyItem_forall _ id _ (fun x hx => ?_) _ h
        rw [minusStep_eq_setPlanned]
        exact setPlanned_within _ x hx
      | plus =>
        refine modifyItem_forall _ id _ (fun x hx => ?_) _ h
        rw [plusStep_eq_setPlanned x hx]
        exact setPlanned_within _ x hx
      | other => exact h
  · intro value
    unfold onItemsInput
    cases s.day.items.find? (fun x => x.id = id) with
    | none => exact h
    | some found => exact modifyItem_forall _ id _ (setPlanned_within value) _ h
  · intro checked
    unfold onItemsChange
    cases s.day.items.find? (fun x => x.id = id) with
    | none => exact h
    | some found => exact modifyItem_forall _ id _ (setEaten_within checked) _ h
  · unfold onResetDayClick
    cases confirmed
    · exact h
    · exact makeItems_within _ _
  · intro js data hd it hit
    rw [onItemFormSubmit_items] at hit
    rcases List.mem_append.mp hit with hit | hit
    · exact h it hit
    · rw [List.mem_singleton] at hit
      rw [hit]
      exact ⟨le_rfl, numberOr_nonneg _ 1 zero_le_one hd⟩

theorem makeTemplateItems_within (fresh : ℕ → String) (template : List TemplateEntry)
    (ht : ∀ t ∈ template, 0 ≤ t.plannedServings) :
    ∀ x ∈ makeTemplateItems fresh template, x.WithinPlan := by
  induction template generalizing fresh with
  | nil => simp [makeTemplateItems]
  | cons t rest ih =>
    have h0 : 0 ≤ t.plannedServings := ht t (List.mem_cons_self t rest)
    have hr : ∀ u ∈ rest, 0 ≤ u.plannedServings := fun u hu => ht u (List.mem_cons_of_mem t hu)
    intro x hx
    rcases List.mem_cons.mp hx with rfl | hx
    · refine ⟨le_rfl, ?_⟩
      show (0 : ℚ) ≤ orElse t.plannedServings 1
      unfold orElse
      split_ifs
      · exact zero_le_one
      · exact h0
    · exact ih _ hr x hx

/-- The two remaining handlers keep every item of a day within plan on these
inputs: `consume-half` when every `plannedServings` of the day is 0 or at
least 1/10, and the loading of a stored template none of whose
`plannedServings` is negative. -/
theorem half_and_template_keep_within_plan (s : State) (id : String) (confirmed : Bool)
    (h : ∀ it ∈ s.day.items, it.WithinPlan) :
    ((∀ it ∈ s.day.items, it.plannedServings = 0 ∨ 1 / 10 ≤ it.plannedServings) →
      ∀ it ∈ (onItemsClick ClickTarget.consumeHalf confirmed id s).day.items, it.WithinPlan) ∧
    ((∀ template, s.store.template = some template →
        ∀ t ∈ template, 0 ≤ t.plannedServings) →
      ∀ it ∈ (onLoadTemplateClick confirmed s).day.items, it.WithinPlan) := by
  constructor
  · intro hten
    unfold onItemsClick
    cases s.day.items.find? (fun x => x.id = id) with
    | none => exact h
    | some found =>
      have hboth : ∀ x ∈ s.day.items,
          x.WithinPlan ∧ (x.plannedServings = 0 ∨ 1 / 10 ≤ x.plannedServings) :=
        fun x hx => ⟨h x hx, hten x hx⟩
      have hkeep := modifyItem_forall
        (fun x => x.WithinPlan ∧ (x.plannedServings = 0 ∨ 1 / 10 ≤ x.plannedServings)) id
        consumeHalf (fun x hx => by
          refine ⟨⟨round1_nonneg _ (by linarith [hx.1.1, hx.1.2]), ?_⟩, hx.2⟩
          show round1 (x.plannedServings * (1 / 2)) ≤ x.plannedServings
          rcases hx.2 with h0 | h1
          · rw [h0, zero_mul, round1_zero]
          · exact round1_half_le _ h1) _ hboth
      intro it hit
      exact (hkeep it hit).1
  · intro ht
    unfold onLoadTemplateClick
    cases hst : s.store.template with
    | none => exact h
    | some template =>
      cases confirmed
      · exact h
      · exact makeTemplateItems_within _ _ (ht template hst)

/-- C1, at the failing input: on a day whose one item is within plan, the
add-item form submitted with the text `-1` for planned servings appends an item
with `consumedServings = 0` and `plannedServings = -1`, so that the resulting
day has an item whose `consumedServings` exceeds its `plannedServings`. -/
theorem add_item_negative_planned_breaks_plan :
    (∀ it ∈ (stateWith [turkey "a" 1 0]).day.items, it.WithinPlan) ∧
    (onItemFormSubmit asciiOps (formWith "Soup" (FormValue.numeral 100) (FormValue.numeral (-1)))
        (stateWith [turkey "a" 1 0])).day.items.map
          (fun it => (it.consumedServings, it.plannedServings))
      = [(0, 1), (0, -1)] ∧
    ∃ it ∈ (onItemFormSubmit asciiOps
          (formWith "Soup" (FormValue.numeral 100) (FormValue.numeral (-1)))
          (stateWith [turkey "a" 1 0])).day.items,
      it.plannedServings < it.consumedServings := by
  refine ⟨?_, ?_, ?_⟩
  · intro it hit
    simp only [stateWith, List.mem_singleton] at hit
    rw [hit]
    norm_num [Item.WithinPlan, turkey]
  · rw [onItemFormSubmit_items]
    simp [stateWith, turkey, itemOfForm, makeItemFromLibraryEntry, entryOfForm, formWith,
      FormValue.numberOr]
  · rw [onItemFormSubmit_items]
    refine ⟨itemOfForm asciiOps ((stateWith [turkey "a" 1 0]).fresh 0)
      (formWith "Soup" (FormValue.numeral 100) (FormValue.numeral (-1))), by simp, ?_⟩
    norm_num [itemOfForm, makeItemFromLibraryEntry, formWith, FormValue.numberOr]

end DietPlan
